import Mathlib

/-!
Verification development for the `storage-labels` icon scripts.

The repository contains two standalone Python scripts:

* `tools/update_icons.py` — the Icon Recolorizer: loads a bitmap, draws a
  light-red disc on a fresh transparent canvas, then walks every source pixel;
  pixels with alpha 0 are skipped (`continue`), all others are rewritten to a
  brown tone scaled by the pixel's mean luminance, keeping the source alpha.
* `tools/create_custom_icon.py` — the Icon Synthesizer: draws an off-white
  disc and a fixed scene of three shelves and eight boxes, every coordinate a
  hardcoded fraction of the requested `size`.

The embedding models an image as a pixel function together with its
dimensions, and models the drawing-library calls (`ellipse`, `rectangle`,
`polygon`, `line`) as a display list of commands rendered by painting each
command's pixel region with its fill colour.

Every coordinate either script ever passes to the drawing library is an
integer multiple of `size / 1000` (the hardcoded fractions are 0.004, 0.005,
0.018, 0.02, 0.03, 0.04, 0.05, 0.06, 0.1, 0.12, 0.15, 0.175, 0.2, 0.22,
0.32, 0.39, 0.42), so coordinates are embedded exactly as integers in
thousandths of a pixel: the stored integer `c` stands for the coordinate
`c / 1000`.  The Python scripts compute these values in IEEE doubles; every
quantity the theorems below depend on is at least one pixel away from any
rounding boundary, and the per-pixel brown remap `int(139 * ((r+g+b)/765))`
agrees exactly with the integer floor `139*(r+g+b)/765` for all byte channel
values (the exact value is never within `1/765` of an integer unless it is
one, while the float error stays below `10^-12`).
-/

set_option maxHeartbeats 1000000
set_option maxRecDepth 8000

namespace StorageLabels

/-- A 4-channel colour sample; the scripts work in PIL `RGBA` mode, so each
channel is a machine byte in `[0, 255]`. -/
structure RGBA where
  r : Nat
  g : Nat
  b : Nat
  a : Nat
deriving DecidableEq, Repr

/-- A raster image: fixed dimensions plus per-position pixel data.  Only
positions with `x < width` and `y < height` are meaningful. -/
structure Image where
  width : Nat
  height : Nat
  px : Nat → Nat → RGBA

/-- A pixel is in PIL byte range when every channel fits in a byte. -/
def RGBA.InRange (p : RGBA) : Prop :=
  p.r ≤ 255 ∧ p.g ≤ 255 ∧ p.b ≤ 255 ∧ p.a ≤ 255

instance (p : RGBA) : Decidable p.InRange := by
  unfold RGBA.InRange; exact inferInstance

/-- The fully transparent pixel PIL's `Image.new('RGBA', _, (0,0,0,0))`
fills a fresh canvas with. -/
def clearPx : RGBA := ⟨0, 0, 0, 0⟩

/-- One drawing-library call, with the arguments the scripts pass:
bounding boxes and vertices in thousandths of a pixel, a fill colour, and
where the call takes them, an outline colour and a stroke width in whole
pixels.  The only `polygon` calls in the scripts pass exactly four vertices
and the only `line` calls are horizontal. -/
inductive DrawCmd where
  | ellipse (x0 y0 x1 y1 : ℤ) (fill : RGBA)
  | rect (x0 y0 x1 y1 : ℤ) (fill : RGBA) (outline : RGBA) (strokeW : Nat)
  | polygon (pts : List (ℤ × ℤ)) (fill : RGBA) (outline : RGBA)
  | line (x0 y0 x1 y1 : ℤ) (fill : RGBA) (strokeW : Nat)

/-- Pixel membership for `ImageDraw.ellipse([x0,y0,x1,y1])`: the pixel grid
point lies inside the axis-aligned ellipse inscribed in the bounding box.
With centre `((x0+x1)/2, (y0+y1)/2)` and radii `(x1-x0)/2, (y1-y0)/2`, the
inequality `(X-cx)²·ry² + (Y-cy)²·rx² ≤ rx²·ry²` is multiplied through by 16
to stay in integers; the pixel `(x, y)` sits at scaled position
`(1000x, 1000y)`. -/
def coversEllipse (x0 y0 x1 y1 : ℤ) (x y : Nat) : Bool :=
  decide ((2 * 1000 * (x : ℤ) - (x0 + x1)) ^ 2 * (y1 - y0) ^ 2 +
      (2 * 1000 * (y : ℤ) - (y0 + y1)) ^ 2 * (x1 - x0) ^ 2 ≤
    (x1 - x0) ^ 2 * (y1 - y0) ^ 2)

/-- Twice the signed area of the triangle `a b p`; the sign tells on which
side of the directed edge `a → b` the point `p` lies. -/
def cross (a b p : ℤ × ℤ) : ℤ :=
  (b.1 - a.1) * (p.2 - a.2) - (b.2 - a.2) * (p.1 - a.1)

/-- Pixel membership for a filled convex quadrilateral: the point is on one
common side of all four directed edges (boundary included). -/
def inQuad (p1 p2 p3 p4 : ℤ × ℤ) (x y : Nat) : Bool :=
  let p : ℤ × ℤ := (1000 * (x : ℤ), 1000 * (y : ℤ))
  decide ((0 ≤ cross p1 p2 p ∧ 0 ≤ cross p2 p3 p ∧ 0 ≤ cross p3 p4 p ∧ 0 ≤ cross p4 p1 p) ∨
    (cross p1 p2 p ≤ 0 ∧ cross p2 p3 p ≤ 0 ∧ cross p3 p4 p ≤ 0 ∧ cross p4 p1 p ≤ 0))

/-- Pixel membership for each drawing call.  Rectangles follow PIL's
truncation of the (non-negative) float corners to whole pixels, so column
`x` is covered exactly when `int(x0) ≤ x ≤ int(x1)`, i.e.
`x0 < 1000(x+1)` and `1000x ≤ x1` in scaled units; the `line` case covers
the horizontal stroke of the given width (the scripts draw only horizontal
lines); `polygon` is only ever called with four vertices. -/
def covers : DrawCmd → Nat → Nat → Bool
  | .ellipse x0 y0 x1 y1 _, x, y => coversEllipse x0 y0 x1 y1 x y
  | .rect x0 y0 x1 y1 _ _ _, x, y =>
      decide (x0 < 1000 * ((x : ℤ) + 1) ∧ 1000 * (x : ℤ) ≤ x1 ∧
        y0 < 1000 * ((y : ℤ) + 1) ∧ 1000 * (y : ℤ) ≤ y1)
  | .polygon [p1, p2, p3, p4] _ _, x, y => inQuad p1 p2 p3 p4 x y
  | .polygon _ _ _, _, _ => false
  | .line x0 y0 x1 y1 _ w, x, y =>
      decide (x0 < 1000 * ((x : ℤ) + 1) ∧ 1000 * (x : ℤ) ≤ x1 ∧
        2 * y0 - 1000 * (w : ℤ) ≤ 2 * 1000 * (y : ℤ) ∧
        2 * 1000 * (y : ℤ) ≤ 2 * y1 + 1000 * (w : ℤ))

/-- The colour a drawing call fills its region with.  Every call in the two
scripts passes a fully opaque fill; the 1-pixel outline recolours border
pixels inside the same region with an equally opaque colour, so the alpha
channel — the only channel the theorems below read off drawn shapes — is
unaffected by collapsing outline onto fill. -/
def cmdFill : DrawCmd → RGBA
  | .ellipse _ _ _ _ f => f
  | .rect _ _ _ _ f _ _ => f
  | .polygon _ f _ => f
  | .line _ _ _ _ f _ => f

/-- Execute one drawing call on the pixel data. -/
def paint (f : Nat → Nat → RGBA) (c : DrawCmd) : Nat → Nat → RGBA :=
  fun x y => if covers c x y then cmdFill c else f x y

/-- Execute a display list on a fresh fully transparent canvas, exactly as
both scripts do (`Image.new('RGBA', _, (0,0,0,0))` followed by draw calls). -/
def render (cs : List DrawCmd) : Nat → Nat → RGBA :=
  cs.foldl paint (fun _ _ => clearPx)

/-! ## The Icon Recolorizer (`tools/update_icons.py`, `update_icon`) -/

/-- The light-red background colour `#FFB3BA` of `update_icons.py`. -/
def light_red : RGBA := ⟨255, 179, 186, 255⟩

/-- The state of `new_img` after the background-composition step of
`update_icon`: a transparent canvas with the light-red disc
`draw.ellipse([0, 0, width, height], fill=light_red)` drawn on it
(`circle_margin = 0`: the circle fills the entire canvas). -/
def new_img_base (width height : Nat) : Image :=
  ⟨width, height,
    render [.ellipse 0 0 (1000 * (width : ℤ)) (1000 * (height : ℤ)) light_red]⟩

/-- One iteration of the per-pixel loop of `update_icon` at loop position
`p`: skip the pixel when `a == 0` (`continue`), otherwise (`a > 0`) store
the brown tone `(139, 69, 19)` scaled by the pixel's intensity.
`int(139 * intensity)` with `intensity = (r+g+b)/(3*255)` equals the
integer floor `139*(r+g+b)/765`, and likewise for the 69 and 19 channels. -/
def processPixel (img : Image) (acc : Nat → Nat → RGBA) (p : Nat × Nat) :
    Nat → Nat → RGBA :=
  let src := img.px p.1 p.2
  if src.a = 0 then acc
  else if 0 < src.a then
    fun x y =>
      if x = p.1 ∧ y = p.2 then
        ⟨139 * (src.r + src.g + src.b) / 765,
         69 * (src.r + src.g + src.b) / 765,
         19 * (src.r + src.g + src.b) / 765,
         src.a⟩
      else acc x y
  else acc

/-- The positions `(x, y)` visited by `for y in range(height): for x in
range(width)`, in loop order. -/
def allCoords (width height : Nat) : List (Nat × Nat) :=
  (List.range height).flatMap fun y => (List.range width).map fun x => (x, y)

/-- `update_icon` from `tools/update_icons.py`, without the file I/O: build
the light-red-disc background on a canvas of the source's dimensions, then
run the per-pixel loop over the source image, writing into the same canvas. -/
def update_icon (img : Image) : Image :=
  ⟨img.width, img.height,
    (allCoords img.width img.height).foldl (processPixel img)
      (new_img_base img.width img.height).px⟩

/-! ## The Icon Synthesizer (`tools/create_custom_icon.py`, `create_storage_icon`)

Scaled coordinates: an expression `k * s` below denotes the Python value
`size * (k/1000)`; e.g. `margin = 150 * s` is `size * 0.15`.  The division
`content_height / 4` is exact (`700·s / 4 = 175·s`), as are the products
by `0.5`, `0.3`, `0.2`, `0.8` and `0.4` written as exact integer divisions. -/

/-- The off-white circle background colour of `create_custom_icon.py`. -/
def off_white : RGBA := ⟨245, 245, 240, 255⟩

/-- The box colour `#8B4513`. -/
def brown : RGBA := ⟨139, 69, 19, 255⟩

/-- The shelf colour (darker). -/
def dark_brown : RGBA := ⟨101, 50, 14, 255⟩

/-- The darker outline colour. -/
def box_outline : RGBA := ⟨80, 40, 10, 255⟩

/-- The rectangle stroke width `max(1, int(size * 0.005))`. -/
def rectStroke (n : Nat) : Nat := max 1 (5 * n / 1000)

/-- The tape-line stroke width `max(1, int(size * 0.004))`. -/
def lineStroke (n : Nat) : Nat := max 1 (4 * n / 1000)

/-- The three drawing calls of one iteration of the shelf loop of
`create_storage_icon` (`for i in range(num_shelves)`): front face rectangle,
top face polygon, right-edge polygon. -/
def shelfCmds (n : Nat) (i : Nat) : List DrawCmd :=
  let s : ℤ := n
  let margin := 150 * s                                -- size * 0.15
  let content_width := 1000 * s - 2 * margin
  let content_height := 1000 * s - 2 * margin
  let shelf_thickness := 40 * s                        -- size * 0.04
  let shelf_spacing := content_height / 4              -- content_height / (num_shelves + 1)
  let box_depth := 60 * s                              -- size * 0.06
  let shelf_y := margin + shelf_spacing * ((i : ℤ) + 1)
  let shelf_depth := box_depth
  let shelf_left := margin - 50 * s                    -- margin - size * 0.05
  let shelf_right := margin + content_width + 50 * s   -- margin + content_width + size * 0.05
  [ .rect shelf_left shelf_y shelf_right (shelf_y + shelf_thickness)
      dark_brown box_outline (rectStroke n),
    .polygon
      [(shelf_left, shelf_y),
       (shelf_left + shelf_depth / 2, shelf_y - shelf_depth * 3 / 10),
       (shelf_right + shelf_depth / 2, shelf_y - shelf_depth * 3 / 10),
       (shelf_right, shelf_y)]
      ⟨121, 70, 34, 255⟩ box_outline,
    .polygon
      [(shelf_right, shelf_y),
       (shelf_right + shelf_depth / 2, shelf_y - shelf_depth * 3 / 10),
       (shelf_right + shelf_depth / 2, shelf_y + shelf_thickness - shelf_depth * 3 / 10),
       (shelf_right, shelf_y + shelf_thickness)]
      ⟨81, 50, 24, 255⟩ box_outline ]

/-- The four drawing calls of the inner helper `draw_3d_box(x, y, w, h, d)`:
front face rectangle, top face polygon, right face polygon, and the tape
line at 40% of the box height between 20% and 80% of the box width. -/
def draw_3d_box (n : Nat) (x y w h d : ℤ) : List DrawCmd :=
  [ .rect x y (x + w) (y + h) brown box_outline (rectStroke n),
    .polygon
      [(x, y),
       (x + d / 2, y - d * 3 / 10),
       (x + w + d / 2, y - d * 3 / 10),
       (x + w, y)]
      ⟨169, 89, 39, 255⟩ box_outline,
    .polygon
      [(x + w, y),
       (x + w + d / 2, y - d * 3 / 10),
       (x + w + d / 2, y + h - d * 3 / 10),
       (x + w, y + h)]
      ⟨109, 59, 29, 255⟩ box_outline,
    .line (x + w / 5) (y + h * 2 / 5) (x + w * 4 / 5) (y + h * 2 / 5)
      box_outline (lineStroke n) ]

/-- The full display list issued by `create_storage_icon(size, _)`: the
off-white background disc, then the three shelves, then the boxes of
shelves 1, 2 and 3 at the hardcoded x offsets. -/
def iconCommands (n : Nat) : List DrawCmd :=
  let s : ℤ := n
  let margin := 150 * s
  let content_height := 1000 * s - 2 * margin
  let shelf_spacing := content_height / 4
  let box_width := 120 * s                             -- size * 0.12
  let box_height := 100 * s                            -- size * 0.10
  let box_depth := 60 * s                              -- size * 0.06
  let shelf_1_y := margin + shelf_spacing * 1 - box_height
  let boxes_shelf_1 := [margin + 50 * s, margin + 220 * s, margin + 390 * s]
  let shelf_2_y := margin + shelf_spacing * 2 - box_height
  let boxes_shelf_2 := [margin + 100 * s, margin + 320 * s]
  let shelf_3_y := margin + shelf_spacing * 3 - box_height
  let boxes_shelf_3 := [margin + 20 * s, margin + 200 * s, margin + 420 * s]
  DrawCmd.ellipse 0 0 (1000 * s) (1000 * s) off_white ::
    ((List.range 3).flatMap (shelfCmds n)
      ++ boxes_shelf_1.flatMap (fun bx =>
            draw_3d_box n bx shelf_1_y box_width box_height box_depth)
      ++ boxes_shelf_2.flatMap (fun bx =>
            draw_3d_box n bx shelf_2_y box_width box_height box_depth)
      ++ boxes_shelf_3.flatMap (fun bx =>
            draw_3d_box n bx shelf_3_y box_width box_height box_depth))

/-- `create_storage_icon` from `tools/create_custom_icon.py`, without the
file I/O: a `size × size` canvas holding the rendered display list. -/
def create_storage_icon (n : Nat) : Image :=
  ⟨n, n, render (iconCommands n)⟩

/-- The raw pixel bytes of an image in row-major RGBA order — the data that
determines the PNG file PIL writes. -/
def Image.toBytes (img : Image) : List Nat :=
  (List.range img.height).flatMap fun y =>
    (List.range img.width).flatMap fun x =>
      [(img.px x y).r, (img.px x y).g, (img.px x y).b, (img.px x y).a]

/-! ## Generic rendering lemmas -/

/-- Painting cannot make a pixel transparent when every fill in the list is
fully opaque. -/
theorem foldl_paint_a255 (cs : List DrawCmd) (h : ∀ c ∈ cs, (cmdFill c).a = 255) :
    ∀ (f : Nat → Nat → RGBA) (x y : Nat), (f x y).a = 255 →
      ((cs.foldl paint f) x y).a = 255 := by
  induction cs with
  | nil => intro f x y hf; simpa using hf
  | cons c cs ih =>
    intro f x y hf
    rw [List.foldl_cons]
    refine ih (fun d hd => h d (List.mem_cons_of_mem _ hd)) _ x y ?_
    unfold paint
    by_cases hcov : covers c x y
    · simpa [hcov] using h c (List.mem_cons_self _ _)
    · simpa [hcov] using hf

/-- A pixel covered by none of the commands keeps its initial value. -/
theorem foldl_paint_skip (cs : List DrawCmd) (x y : Nat)
    (h : ∀ c ∈ cs, covers c x y = false) :
    ∀ (f : Nat → Nat → RGBA), (cs.foldl paint f) x y = f x y := by
  induction cs with
  | nil => intro f; rfl
  | cons c cs ih =>
    intro f
    rw [List.foldl_cons, ih (fun d hd => h d (List.mem_cons_of_mem _ hd))]
    unfold paint
    simp [h c (List.mem_cons_self _ _)]

/-! ## Loop lemmas for the Recolorizer -/

/-- Loop order contains exactly the in-range positions. -/
theorem mem_allCoords {width height x y : Nat} :
    (x, y) ∈ allCoords width height ↔ x < width ∧ y < height := by
  simp only [allCoords, List.mem_flatMap, List.mem_map, List.mem_range, Prod.mk.injEq]
  constructor
  · rintro ⟨b, hb, c, hc, hcx, hby⟩
    exact ⟨hcx ▸ hc, hby ▸ hb⟩
  · rintro ⟨hx, hy⟩
    exact ⟨y, hy, x, hx, rfl, rfl⟩

/-- Each position is visited exactly once. -/
theorem nodup_allCoords (width height : Nat) : (allCoords width height).Nodup := by
  induction height with
  | zero => simp [allCoords]
  | succ h ih =>
    have hrw : allCoords width (h + 1) =
        allCoords width h ++ (List.range width).map (fun x => (x, h)) := by
      simp [allCoords, List.range_succ]
    rw [hrw]
    refine List.Nodup.append ih ?_ ?_
    · exact (List.nodup_range width).map (fun a b hab => by
        simpa using congrArg Prod.fst hab)
    · intro p hp1 hp2
      obtain ⟨x, y⟩ := p
      have h1 : y < h := (mem_allCoords.mp hp1).2
      have h2 : y = h := by
        simp only [List.mem_map, Prod.mk.injEq] at hp2
        obtain ⟨c, _, _, hcy⟩ := hp2
        exact hcy.symm
      omega

/-- A position whose source pixel is transparent, or which the remaining
loop positions do not include, keeps the accumulated canvas value. -/
theorem foldl_process_skip (img : Image) (x y : Nat) :
    ∀ (L : List (Nat × Nat)) (acc : Nat → Nat → RGBA),
      ((img.px x y).a = 0 ∨ (x, y) ∉ L) →
      (L.foldl (processPixel img) acc) x y = acc x y := by
  intro L
  induction L with
  | nil => intro acc _; rfl
  | cons p L ih =>
    intro acc h
    have h' : (img.px x y).a = 0 ∨ (x, y) ∉ L := by
      rcases h with h | h
      · exact Or.inl h
      · exact Or.inr fun hm => h (List.mem_cons_of_mem _ hm)
    rw [List.foldl_cons, ih _ h']
    show processPixel img acc p x y = acc x y
    unfold processPixel
    by_cases h0 : (img.px p.1 p.2).a = 0
    · simp [h0]
    · have hne : ¬(x = p.1 ∧ y = p.2) := by
        rintro ⟨hx1, hy1⟩
        have hpxy : p = (x, y) := by
          cases p
          simp_all
        rcases h with h | h
        · exact h0 (by rw [hpxy] at h0 ⊢; exact h)
        · exact h (hpxy ▸ List.mem_cons_self _ _)
      simp [h0, Nat.pos_of_ne_zero h0, hne]

/-- The value the per-pixel loop of `update_icon` leaves at an in-range
position whose source pixel has positive alpha: the brown tone scaled by
the source intensity, with the source alpha. -/
theorem update_icon_px_remap (img : Image) (x y : Nat)
    (hx : x < img.width) (hy : y < img.height) (ha : (img.px x y).a ≠ 0) :
    (update_icon img).px x y =
      ⟨139 * ((img.px x y).r + (img.px x y).g + (img.px x y).b) / 765,
       69 * ((img.px x y).r + (img.px x y).g + (img.px x y).b) / 765,
       19 * ((img.px x y).r + (img.px x y).g + (img.px x y).b) / 765,
       (img.px x y).a⟩ := by
  obtain ⟨A, B, hAB⟩ := List.append_of_mem (mem_allCoords.mpr ⟨hx, hy⟩)
  have hnd := nodup_allCoords img.width img.height
  rw [hAB] at hnd
  have hnotB : (x, y) ∉ B := (List.nodup_cons.mp hnd.of_append_right).1
  show ((allCoords img.width img.height).foldl (processPixel img)
      (new_img_base img.width img.height).px) x y = _
  rw [hAB, List.foldl_append, List.foldl_cons,
    foldl_process_skip img x y B _ (Or.inr hnotB)]
  show processPixel img _ (x, y) x y = _
  unfold processPixel
  simp [ha, Nat.pos_of_ne_zero ha]

/-- The value the per-pixel loop of `update_icon` leaves at a position whose
source pixel is fully transparent: whatever the background-composition step
put there. -/
theorem update_icon_px_transparent (img : Image) (x y : Nat)
    (ha : (img.px x y).a = 0) :
    (update_icon img).px x y = (new_img_base img.width img.height).px x y :=
  foldl_process_skip img x y _ _ (Or.inl ha)

/-! ## Concrete test images for witnesses and counterexamples -/

/-- A 3×3 source image every pixel of which is fully transparent. -/
def allClear3 : Image := ⟨3, 3, fun _ _ => ⟨0, 0, 0, 0⟩⟩

/-- A 1×1 source image whose pixel is fully opaque white. -/
def allWhite1 : Image := ⟨1, 1, fun _ _ => ⟨255, 255, 255, 255⟩⟩

/-! ## Claims about the Icon Recolorizer -/

/-- Claim C1: for every source pixel with alpha > 0, the output pixel's RGB
is the brown tone `(139, 69, 19)` scaled by the source intensity
`(r+g+b)/(3·255)`, each channel truncated to an integer exactly as Python's
`int(...)` does, and the output alpha equals the source alpha. -/
theorem recolorized_pixel_formula (img : Image) (x y : Nat)
    (hx : x < img.width) (hy : y < img.height) (ha : 0 < (img.px x y).a) :
    (update_icon img).px x y =
      ⟨139 * ((img.px x y).r + (img.px x y).g + (img.px x y).b) / 765,
       69 * ((img.px x y).r + (img.px x y).g + (img.px x y).b) / 765,
       19 * ((img.px x y).r + (img.px x y).g + (img.px x y).b) / 765,
       (img.px x y).a⟩ :=
  update_icon_px_remap img x y hx hy (Nat.pos_iff_ne_zero.mp ha)

/-- Witness for C1 at the opaque white 1×1 image. -/
theorem recolorized_pixel_formula_witness :
    0 < allWhite1.width ∧ 0 < allWhite1.height ∧ 0 < (allWhite1.px 0 0).a ∧
      (update_icon allWhite1).px 0 0 =
        ⟨139 * ((allWhite1.px 0 0).r + (allWhite1.px 0 0).g + (allWhite1.px 0 0).b) / 765,
         69 * ((allWhite1.px 0 0).r + (allWhite1.px 0 0).g + (allWhite1.px 0 0).b) / 765,
         19 * ((allWhite1.px 0 0).r + (allWhite1.px 0 0).g + (allWhite1.px 0 0).b) / 765,
         (allWhite1.px 0 0).a⟩ :=
  ⟨by decide, by decide, by decide,
    recolorized_pixel_formula allWhite1 0 0 (by decide) (by decide) (by decide)⟩

/-- Counterexample to claim C2 as stated: in the 3×3 all-transparent source,
the source pixel at `(1,1)` has alpha 0, yet the corresponding output pixel
is the light-red disc fill with alpha 255 — not the transparent base fill —
because the background disc was drawn before the remapping loop and the loop
merely skips the position. -/
theorem transparent_pixel_not_left_clear :
    (allClear3.px 1 1).a = 0 ∧ (update_icon allClear3).px 1 1 = light_red ∧
      ((update_icon allClear3).px 1 1).a ≠ 0 := by decide

/-- Claim C2 as amended: for every output pixel whose source pixel has
alpha 0, the output holds the background-composition value — the light-red
disc fill (alpha 255) where the position lies inside the background disc,
and the untouched transparent base fill (alpha 0) outside it. -/
theorem transparent_pixel_keeps_background (img : Image) (x y : Nat)
    (hx : x < img.width) (hy : y < img.height) (ha : (img.px x y).a = 0) :
    (update_icon img).px x y =
      if coversEllipse 0 0 (1000 * (img.width : ℤ)) (1000 * (img.height : ℤ)) x y
      then light_red else clearPx := by
  rw [update_icon_px_transparent img x y ha]
  show render [_] x y = _
  simp only [render, List.foldl_cons, List.foldl_nil, paint, covers]
  rfl

/-- Witness for the amended C2 at the all-transparent 3×3 image. -/
theorem transparent_pixel_keeps_background_witness :
    1 < allClear3.width ∧ 1 < allClear3.height ∧ (allClear3.px 1 1).a = 0 ∧
      (update_icon allClear3).px 1 1 =
        (if coversEllipse 0 0 (1000 * (allClear3.width : ℤ))
            (1000 * (allClear3.height : ℤ)) 1 1
         then light_red else clearPx) :=
  ⟨by decide, by decide, by decide,
    transparent_pixel_keeps_background allClear3 1 1 (by decide) (by decide) (by decide)⟩

/-- Claim C3: the per-pixel remapping loop never writes to a position whose
source pixel has alpha 0 — the output there is exactly the value left by the
background-composition step (`new_img` with the light-red disc). -/
theorem remap_loop_skips_transparent (img : Image) (x y : Nat)
    (hx : x < img.width) (hy : y < img.height) (ha : (img.px x y).a = 0) :
    (update_icon img).px x y = (new_img_base img.width img.height).px x y :=
  update_icon_px_transparent img x y ha

/-- Witness for C3 at the all-transparent 3×3 image, corner position. -/
theorem remap_loop_skips_transparent_witness :
    0 < allClear3.width ∧ 0 < allClear3.height ∧ (allClear3.px 0 0).a = 0 ∧
      (update_icon allClear3).px 0 0 =
        (new_img_base allClear3.width allClear3.height).px 0 0 :=
  ⟨by decide, by decide, by decide,
    remap_loop_skips_transparent allClear3 0 0 (by decide) (by decide) (by decide)⟩

/-- Claim C7: a fully opaque white source pixel has intensity exactly 1
(`r+g+b = 765 = 3·255`, so `intensity = 765/765 = 1.0`) and maps to exactly
the full brown tone `(139, 69, 19, 255)`. -/
theorem white_pixel_maps_to_full_brown (img : Image) (x y : Nat)
    (hx : x < img.width) (hy : y < img.height)
    (hw : img.px x y = ⟨255, 255, 255, 255⟩) :
    (img.px x y).r + (img.px x y).g + (img.px x y).b = 3 * 255 ∧
      (update_icon img).px x y = ⟨139, 69, 19, 255⟩ := by
  refine ⟨by rw [hw]; decide, ?_⟩
  rw [update_icon_px_remap img x y hx hy (by rw [hw]; decide), hw]
  decide

/-- Witness for C7 at the opaque white 1×1 image. -/
theorem white_pixel_maps_to_full_brown_witness :
    0 < allWhite1.width ∧ 0 < allWhite1.height ∧
      allWhite1.px 0 0 = ⟨255, 255, 255, 255⟩ ∧
      ((allWhite1.px 0 0).r + (allWhite1.px 0 0).g + (allWhite1.px 0 0).b = 3 * 255 ∧
        (update_icon allWhite1).px 0 0 = ⟨139, 69, 19, 255⟩) :=
  ⟨by decide, by decide, by decide,
    white_pixel_maps_to_full_brown allWhite1 0 0 (by decide) (by decide) (by decide)⟩

/-- Claim C8: the Recolorizer's output image has exactly the dimensions of
its input image (`new_img = Image.new('RGBA', (width, height), ...)`). -/
theorem recolorizer_preserves_dimensions (img : Image) :
    (update_icon img).width = img.width ∧ (update_icon img).height = img.height :=
  ⟨rfl, rfl⟩

/-- Claim C9: every remapped output pixel (source alpha > 0, byte-range
source channels) satisfies `B ≤ G ≤ R` with `R ≤ 139`, `G ≤ 69`, `B ≤ 19`:
it lies on the truncated brown ray and never exceeds the base brown tone. -/
theorem recolorized_pixel_on_brown_ray (img : Image) (x y : Nat)
    (hx : x < img.width) (hy : y < img.height) (ha : 0 < (img.px x y).a)
    (hin : (img.px x y).InRange) :
    ((update_icon img).px x y).g ≤ ((update_icon img).px x y).r ∧
      ((update_icon img).px x y).b ≤ ((update_icon img).px x y).g ∧
      ((update_icon img).px x y).r ≤ 139 ∧
      ((update_icon img).px x y).g ≤ 69 ∧
      ((update_icon img).px x y).b ≤ 19 := by
  obtain ⟨h1, h2, h3, _⟩ := hin
  rw [update_icon_px_remap img x y hx hy (Nat.pos_iff_ne_zero.mp ha)]
  simp only
  omega

/-- Witness for C9 at the opaque white 1×1 image. -/
theorem recolorized_pixel_on_brown_ray_witness :
    0 < allWhite1.width ∧ 0 < allWhite1.height ∧ 0 < (allWhite1.px 0 0).a ∧
      (allWhite1.px 0 0).InRange ∧
      (((update_icon allWhite1).px 0 0).g ≤ ((update_icon allWhite1).px 0 0).r ∧
        ((update_icon allWhite1).px 0 0).b ≤ ((update_icon allWhite1).px 0 0).g ∧
        ((update_icon allWhite1).px 0 0).r ≤ 139 ∧
        ((update_icon allWhite1).px 0 0).g ≤ 69 ∧
        ((update_icon allWhite1).px 0 0).b ≤ 19) :=
  ⟨by decide, by decide, by decide, by decide,
    recolorized_pixel_on_brown_ray allWhite1 0 0 (by decide) (by decide) (by decide)
      (by decide)⟩

/-! ## Opacity of the Synthesizer's display list -/

/-- Every fill in one shelf group is fully opaque. -/
theorem shelfCmds_fill_a (n i : Nat) : ∀ c ∈ shelfCmds n i, (cmdFill c).a = 255 := by
  intro c hc
  simp only [shelfCmds, List.mem_cons, List.not_mem_nil, or_false] at hc
  rcases hc with rfl | rfl | rfl <;> rfl

/-- Every fill in one box group is fully opaque. -/
theorem draw_3d_box_fill_a (n : Nat) (x y w h d : ℤ) :
    ∀ c ∈ draw_3d_box n x y w h d, (cmdFill c).a = 255 := by
  intro c hc
  simp only [draw_3d_box, List.mem_cons, List.not_mem_nil, or_false] at hc
  rcases hc with rfl | rfl | rfl | rfl <;> rfl

/-- Every fill the Synthesizer ever paints with is fully opaque. -/
theorem iconCommands_fill_a (n : Nat) : ∀ c ∈ iconCommands n, (cmdFill c).a = 255 := by
  intro c hc
  simp only [iconCommands, List.mem_cons, List.mem_append] at hc
  rcases hc with rfl | ((hc | hc) | hc) | hc
  · rfl
  · obtain ⟨i, _, hci⟩ := List.mem_flatMap.mp hc
    exact shelfCmds_fill_a n i c hci
  all_goals
    obtain ⟨bx, _, hcb⟩ := List.mem_flatMap.mp hc
    exact draw_3d_box_fill_a n bx _ _ _ _ c hcb

/-- The tail of the Synthesizer's display list (everything after the
background disc). -/
def iconTail (n : Nat) : List DrawCmd := (iconCommands n).tail

theorem iconCommands_eq (n : Nat) :
    iconCommands n =
      DrawCmd.ellipse 0 0 (1000 * (n : ℤ)) (1000 * (n : ℤ)) off_white :: iconTail n :=
  rfl

/-- A pixel inside the background disc ends up fully opaque: the disc paints
it with alpha 255 and every later command repaints it, if at all, with an
equally opaque fill. -/
theorem create_px_a255_of_inDisc (n x y : Nat)
    (h : coversEllipse 0 0 (1000 * (n : ℤ)) (1000 * (n : ℤ)) x y = true) :
    ((create_storage_icon n).px x y).a = 255 := by
  show ((render (iconCommands n)) x y).a = 255
  rw [iconCommands_eq]
  unfold render
  rw [List.foldl_cons]
  apply foldl_paint_a255 _ (fun d hd =>
    iconCommands_fill_a n d (by rw [iconCommands_eq]; exact List.mem_cons_of_mem _ hd))
  simp [paint, covers, h, cmdFill, off_white]

/-! ## Claims C4, C5 and the counterexample to C10 -/

/-- Claim C4: for every size > 0 the Synthesizer's output is exactly
`size × size`; every pixel inside the inscribed background circle is fully
opaque (alpha 255), so a fully transparent pixel can only be padding outside
the circle. -/
theorem synthesizer_size_and_disc (n : Nat) (hn : 0 < n) :
    (create_storage_icon n).width = n ∧ (create_storage_icon n).height = n ∧
      ∀ x y : Nat, x < n → y < n →
        (coversEllipse 0 0 (1000 * (n : ℤ)) (1000 * (n : ℤ)) x y = true →
          ((create_storage_icon n).px x y).a = 255) ∧
        (((create_storage_icon n).px x y).a = 0 →
          coversEllipse 0 0 (1000 * (n : ℤ)) (1000 * (n : ℤ)) x y = false) := by
  refine ⟨rfl, rfl, fun x y _ _ => ⟨create_px_a255_of_inDisc n x y, fun h0 => ?_⟩⟩
  cases hcov : coversEllipse 0 0 (1000 * (n : ℤ)) (1000 * (n : ℤ)) x y
  · rfl
  · have := create_px_a255_of_inDisc n x y hcov
    omega

/-- Witness for C4 at size 2. -/
theorem synthesizer_size_and_disc_witness :
    0 < 2 ∧
      ((create_storage_icon 2).width = 2 ∧ (create_storage_icon 2).height = 2 ∧
        ∀ x y : Nat, x < 2 → y < 2 →
          (coversEllipse 0 0 (1000 * (2 : ℤ)) (1000 * (2 : ℤ)) x y = true →
            ((create_storage_icon 2).px x y).a = 255) ∧
          (((create_storage_icon 2).px x y).a = 0 →
            coversEllipse 0 0 (1000 * (2 : ℤ)) (1000 * (2 : ℤ)) x y = false)) :=
  ⟨by decide, synthesizer_size_and_disc 2 (by decide)⟩

/-- Two invocations of the Synthesizer with the same size, as the script's
two hardcoded calls perform. -/
def runSynthesizerTwice (n : Nat) : Image × Image :=
  (create_storage_icon n, create_storage_icon n)

/-- Claim C5: running the Synthesizer twice with the same size yields
byte-identical pixel data — `create_storage_icon` is a pure function of
`size`, reading no input, clock or randomness, so the two runs agree
definitionally. -/
theorem synthesizer_deterministic (n : Nat) (hn : 0 < n) :
    ((runSynthesizerTwice n).1).toBytes = ((runSynthesizerTwice n).2).toBytes := rfl

/-- Witness for C5 at size 192 (the first size the script uses). -/
theorem synthesizer_deterministic_witness :
    0 < 192 ∧
      ((runSynthesizerTwice 192).1).toBytes = ((runSynthesizerTwice 192).2).toBytes :=
  ⟨by decide, synthesizer_deterministic 192 (by decide)⟩

/-- Counterexample to claim C10 as stated: it is not true that for every
size > 0 all four corner pixels are fully transparent.  At size 2 the corner
pixel `(1, 1)` lies inside the inscribed circle (it is the circle's centre
cell) and at the same size the corner `(0, 0)` is covered by a shelf
rectangle whose fractional coordinates truncate to row and column 0 — both
corners come out fully opaque. -/
theorem corner_pixels_not_always_transparent :
    ¬ ∀ n : Nat, 0 < n →
        ((create_storage_icon n).px 0 0).a = 0 ∧
        ((create_storage_icon n).px (n - 1) 0).a = 0 ∧
        ((create_storage_icon n).px 0 (n - 1)).a = 0 ∧
        ((create_storage_icon n).px (n - 1) (n - 1)).a = 0 := by
  intro h
  have h2 := (h 2 (by decide)).2.2.2
  revert h2
  decide

/-! ## Corner pixels of the Synthesizer's output

All geometry sits well inside the canvas once the size is at least 7: the
background circle misses all four corner cells, every rectangle and polygon
keeps its rows strictly between row 0 and row `size - 1`, and so does the
tape line.  Below, `cy` ranges over the two corner rows and `cx` over the
two corner columns. -/

/-- A point inside a top-face parallelogram (horizontal bottom edge at `Y`,
horizontal top edge at `Y - e`) has its row between the two edges. -/
theorem inQuad_top_y (l r Y e d : ℤ) (cx cy : Nat) (hlr : l < r) (he : 0 < e)
    (h : inQuad (l, Y) (l + d, Y - e) (r + d, Y - e) (r, Y) cx cy = true) :
    Y - e ≤ 1000 * (cy : ℤ) ∧ 1000 * (cy : ℤ) ≤ Y := by
  simp only [inQuad, cross, decide_eq_true_eq] at h
  rcases h with ⟨h1, h2, h3, h4⟩ | ⟨h1, h2, h3, h4⟩
  · constructor
    · nlinarith
    · nlinarith
  · exfalso; nlinarith

/-- A point inside a right-face parallelogram (vertical edges at `R` and
`R + d`, slanted edges dropping by `e`) has its row between `Y - e` and
`Y + H`. -/
theorem inQuad_side_y (R Y e d H : ℤ) (cx cy : Nat) (hd : 0 < d) (he : 0 < e)
    (hH : 0 < H)
    (h : inQuad (R, Y) (R + d, Y - e) (R + d, Y + H - e) (R, Y + H) cx cy = true) :
    Y - e ≤ 1000 * (cy : ℤ) ∧ 1000 * (cy : ℤ) ≤ Y + H := by
  simp only [inQuad, cross, decide_eq_true_eq] at h
  rcases h with ⟨h1, h2, h3, h4⟩ | ⟨h1, h2, h3, h4⟩
  · have hXle : 1000 * (cx : ℤ) ≤ R + d := by nlinarith
    have hXge : R ≤ 1000 * (cx : ℤ) := by nlinarith
    constructor
    · nlinarith
    · nlinarith
  · exfalso; nlinarith

/-- A rectangle misses every pixel of a row strictly above or below it. -/
theorem covers_rect_row_false (x0 y0 x1 y1 : ℤ) (f o : RGBA) (w cx cy : Nat)
    (hy : 1000 * ((cy : ℤ) + 1) ≤ y0 ∨ y1 < 1000 * (cy : ℤ)) :
    covers (.rect x0 y0 x1 y1 f o w) cx cy = false := by
  simp only [covers, decide_eq_false_iff_not]
  rintro ⟨h1, h2, h3, h4⟩
  rcases hy with hy | hy <;> omega

/-- A horizontal stroke misses every pixel of a row outside its band. -/
theorem covers_line_row_false (x0 y0 x1 y1 : ℤ) (f : RGBA) (w cx cy : Nat)
    (hy : 2 * 1000 * (cy : ℤ) < 2 * y0 - 1000 * (w : ℤ) ∨
      2 * y1 + 1000 * (w : ℤ) < 2 * 1000 * (cy : ℤ)) :
    covers (.line x0 y0 x1 y1 f w) cx cy = false := by
  simp only [covers, decide_eq_false_iff_not]
  rintro ⟨h1, h2, h3, h4⟩
  rcases hy with hy | hy <;> omega

/-- A top-face parallelogram misses every pixel of a row outside its rows. -/
theorem covers_top_poly_false (l r Y e d : ℤ) (fl ol : RGBA) (cx cy : Nat)
    (hlr : l < r) (he : 0 < e)
    (hy : 1000 * (cy : ℤ) < Y - e ∨ Y < 1000 * (cy : ℤ)) :
    covers (.polygon [(l, Y), (l + d, Y - e), (r + d, Y - e), (r, Y)] fl ol) cx cy
      = false := by
  show inQuad _ _ _ _ cx cy = false
  cases hq : inQuad (l, Y) (l + d, Y - e) (r + d, Y - e) (r, Y) cx cy
  · rfl
  · exfalso
    have hb := inQuad_top_y l r Y e d cx cy hlr he hq
    rcases hy with hy | hy <;> linarith [hb.1, hb.2]

/-- A right-face parallelogram misses every pixel of a row outside its rows. -/
theorem covers_side_poly_false (R Y e d H : ℤ) (fl ol : RGBA) (cx cy : Nat)
    (hd : 0 < d) (he : 0 < e) (hH : 0 < H)
    (hy : 1000 * (cy : ℤ) < Y - e ∨ Y + H < 1000 * (cy : ℤ)) :
    covers (.polygon [(R, Y), (R + d, Y - e), (R + d, Y + H - e), (R, Y + H)] fl ol) cx cy
      = false := by
  show inQuad _ _ _ _ cx cy = false
  cases hq : inQuad (R, Y) (R + d, Y - e) (R + d, Y + H - e) (R, Y + H) cx cy
  · rfl
  · exfalso
    have hb := inQuad_side_y R Y e d H cx cy hd he hH hq
    rcases hy with hy | hy <;> linarith [hb.1, hb.2]

/-- For size at least 7 the inscribed background circle misses all four
corner cells (for sizes 2 to 6 the far corner cell lies inside it). -/
theorem coversEllipse_corner_false (n cx cy : Nat) (hn : 7 ≤ n)
    (hcx : cx = 0 ∨ cx = n - 1) (hcy : cy = 0 ∨ cy = n - 1) :
    coversEllipse 0 0 (1000 * (n : ℤ)) (1000 * (n : ℤ)) cx cy = false := by
  simp only [coversEllipse, decide_eq_false_iff_not]
  intro h
  have hn7 : (7 : ℤ) ≤ (n : ℤ) := by exact_mod_cast hn
  have hc1 : ((n - 1 : ℕ) : ℤ) = (n : ℤ) - 1 := by omega
  rcases hcx with rfl | rfl <;> rcases hcy with rfl | rfl <;>
    simp only [hc1, Nat.cast_zero] at h <;>
    nlinarith [h, hn7,
      mul_nonneg (by linarith : (0:ℤ) ≤ (n:ℤ) - 7) (by linarith : (0:ℤ) ≤ (n:ℤ) - 1),
      sq_nonneg ((n:ℤ)), sq_nonneg ((n:ℤ) - 2),
      mul_pos (by linarith : (0:ℤ) < (n:ℤ)) (by linarith : (0:ℤ) < (n:ℤ))]

/-- For size at least 7, no drawing call of a box group (front y between
`0.225·size` and `0.575·size`) touches a corner row. -/
theorem draw_3d_box_corner_false (n : Nat) (bx Y : ℤ) (hn : 7 ≤ n) (cx cy : Nat)
    (hY1 : 225 * (n : ℤ) ≤ Y) (hY2 : Y ≤ 575 * (n : ℤ))
    (hcy : cy = 0 ∨ cy = n - 1) :
    ∀ c ∈ draw_3d_box n bx Y (120 * (n : ℤ)) (100 * (n : ℤ)) (60 * (n : ℤ)),
      covers c cx cy = false := by
  intro c hc
  have hn7 : (7 : ℤ) ≤ (n : ℤ) := by exact_mod_cast hn
  have hw : 1000 * ((lineStroke n : ℕ) : ℤ) ≤ 1000 + 4 * (n : ℤ) := by
    unfold lineStroke; omega
  simp only [draw_3d_box, List.mem_cons, List.not_mem_nil, or_false] at hc
  rcases hc with rfl | rfl | rfl | rfl
  · apply covers_rect_row_false
    rcases hcy with rfl | rfl
    · exact Or.inl (by push_cast; omega)
    · exact Or.inr (by omega)
  · apply covers_top_poly_false _ _ _ _ _ _ _ _ _ (by omega) (by omega)
    rcases hcy with rfl | rfl
    · exact Or.inl (by push_cast; omega)
    · exact Or.inr (by omega)
  · apply covers_side_poly_false _ _ _ _ _ _ _ _ _ (by omega) (by omega) (by omega)
    rcases hcy with rfl | rfl
    · exact Or.inl (by push_cast; omega)
    · exact Or.inr (by omega)
  · apply covers_line_row_false
    rcases hcy with rfl | rfl
    · exact Or.inl (by push_cast; omega)
    · exact Or.inr (by omega)

/-- For size at least 7, no drawing call of a shelf group touches a corner
row. -/
theorem shelfCmds_corner_false (n i : Nat) (hn : 7 ≤ n) (hi : i < 3) (cx cy : Nat)
    (hcy : cy = 0 ∨ cy = n - 1) :
    ∀ c ∈ shelfCmds n i, covers c cx cy = false := by
  intro c hc
  have hn7 : (7 : ℤ) ≤ (n : ℤ) := by exact_mod_cast hn
  simp only [shelfCmds, List.mem_cons, List.not_mem_nil, or_false] at hc
  interval_cases i <;> rcases hc with rfl | rfl | rfl
  all_goals first
    | (apply covers_rect_row_false
       rcases hcy with rfl | rfl
       · exact Or.inl (by push_cast; omega)
       · exact Or.inr (by omega))
    | (apply covers_top_poly_false _ _ _ _ _ _ _ _ _ (by omega) (by omega)
       rcases hcy with rfl | rfl
       · exact Or.inl (by push_cast; omega)
       · exact Or.inr (by omega))
    | (apply covers_side_poly_false _ _ _ _ _ _ _ _ _ (by omega) (by omega) (by omega)
       rcases hcy with rfl | rfl
       · exact Or.inl (by push_cast; omega)
       · exact Or.inr (by omega))

/-- For size at least 7, every corner pixel of the Synthesizer's canvas is
covered by no drawing call at all and so keeps the transparent base value. -/
theorem corner_clear (n : Nat) (hn : 7 ≤ n) (cx cy : Nat)
    (hcx : cx = 0 ∨ cx = n - 1) (hcy : cy = 0 ∨ cy = n - 1) :
    (create_storage_icon n).px cx cy = clearPx := by
  have hall : ∀ c ∈ iconCommands n, covers c cx cy = false := by
    intro c hc
    simp only [iconCommands, List.mem_cons, List.mem_append] at hc
    rcases hc with rfl | ((hc | hc) | hc) | hc
    · exact coversEllipse_corner_false n cx cy hn hcx hcy
    · obtain ⟨i, hi, hci⟩ := List.mem_flatMap.mp hc
      exact shelfCmds_corner_false n i hn (by simpa using hi) cx cy hcy c hci
    · obtain ⟨bx, _, hcb⟩ := List.mem_flatMap.mp hc
      exact draw_3d_box_corner_false n bx _ hn cx cy (by omega) (by omega) hcy c hcb
    · obtain ⟨bx, _, hcb⟩ := List.mem_flatMap.mp hc
      exact draw_3d_box_corner_false n bx _ hn cx cy (by omega) (by omega) hcy c hcb
    · obtain ⟨bx, _, hcb⟩ := List.mem_flatMap.mp hc
      exact draw_3d_box_corner_false n bx _ hn cx cy (by omega) (by omega) hcy c hcb
  show render (iconCommands n) cx cy = clearPx
  unfold render
  rw [foldl_paint_skip _ cx cy hall]

/-- Claim C10 as amended: for every size of at least 7, the four corner
pixels lie outside the inscribed background circle and outside every drawn
shape, and therefore remain fully transparent (alpha 0).  For the degenerate
sizes 1–6 the circle or a truncated shelf rectangle reaches a corner cell
(see the counterexample at size 2). -/
theorem corners_transparent_for_size_ge_seven (n : Nat) (hn : 7 ≤ n) :
    ((create_storage_icon n).px 0 0).a = 0 ∧
    ((create_storage_icon n).px (n - 1) 0).a = 0 ∧
    ((create_storage_icon n).px 0 (n - 1)).a = 0 ∧
    ((create_storage_icon n).px (n - 1) (n - 1)).a = 0 := by
  refine ⟨?_, ?_, ?_, ?_⟩ <;> (rw [corner_clear n hn _ _ (by omega) (by omega)]; rfl)

/-- Witness for the amended C10 at size 7. -/
theorem corners_transparent_for_size_ge_seven_witness :
    7 ≤ 7 ∧
      (((create_storage_icon 7).px 0 0).a = 0 ∧
       ((create_storage_icon 7).px (7 - 1) 0).a = 0 ∧
       ((create_storage_icon 7).px 0 (7 - 1)).a = 0 ∧
       ((create_storage_icon 7).px (7 - 1) (7 - 1)).a = 0) :=
  ⟨by decide, corners_transparent_for_size_ge_seven 7 (by decide)⟩

/-! ## Claim C6: the scene layout

The definitions below restate the scene exactly as the spec describes it —
"three horizontal shelves holding a fixed arrangement of rectangular boxes,
each box and shelf rendered with a front face, a top face, and a side face
… using hardcoded proportional offsets relative to `size`" — with every
offset written out as an explicit fraction of the size (in thousandths):
shelves span columns `0.1·size … 0.9·size` at rows `0.325`, `0.5` and
`0.675` of the size with thickness `0.04·size`; every top/side face recedes
by `(+0.03, −0.018)·size`; boxes measure `0.12 × 0.10` of the size and sit
at the eight hardcoded x offsets, three on shelf 1, two on shelf 2, three on
shelf 3, each with a tape line at 40% of its height.  The refinement theorem
states that the Synthesizer's display list is exactly this scene. -/

/-- One shelf as the spec describes it: front face rectangle, top face, and
right-side face, at row `Y` (in thousandths of a pixel). -/
def specShelfFaces (n : Nat) (Y : ℤ) : List DrawCmd :=
  let s : ℤ := n
  [ .rect (100 * s) Y (900 * s) (Y + 40 * s) dark_brown box_outline (rectStroke n),
    .polygon [(100 * s, Y), (100 * s + 30 * s, Y - 18 * s),
      (900 * s + 30 * s, Y - 18 * s), (900 * s, Y)] ⟨121, 70, 34, 255⟩ box_outline,
    .polygon [(900 * s, Y), (900 * s + 30 * s, Y - 18 * s),
      (900 * s + 30 * s, Y + 40 * s - 18 * s), (900 * s, Y + 40 * s)]
      ⟨81, 50, 24, 255⟩ box_outline ]

/-- One box as the spec describes it: front face rectangle, top face,
right-side face, and the tape line, with top-left corner `(X, Y)` (in
thousandths of a pixel). -/
def specBoxFaces (n : Nat) (X Y : ℤ) : List DrawCmd :=
  let s : ℤ := n
  [ .rect X Y (X + 120 * s) (Y + 100 * s) brown box_outline (rectStroke n),
    .polygon [(X, Y), (X + 30 * s, Y - 18 * s),
      (X + 120 * s + 30 * s, Y - 18 * s), (X + 120 * s, Y)]
      ⟨169, 89, 39, 255⟩ box_outline,
    .polygon [(X + 120 * s, Y), (X + 120 * s + 30 * s, Y - 18 * s),
      (X + 120 * s + 30 * s, Y + 100 * s - 18 * s), (X + 120 * s, Y + 100 * s)]
      ⟨109, 59, 29, 255⟩ box_outline,
    .line (X + 24 * s) (Y + 40 * s) (X + 96 * s) (Y + 40 * s)
      box_outline (lineStroke n) ]

/-- The whole scene as the spec describes it: the background disc, exactly
three shelves at rows `0.325`, `0.5`, `0.675` of the size, then exactly
eight boxes — three on shelf 1, two on shelf 2, three on shelf 3 — at the
hardcoded x offsets. -/
def sceneSpec (n : Nat) : List DrawCmd :=
  let s : ℤ := n
  DrawCmd.ellipse 0 0 (1000 * s) (1000 * s) off_white ::
    (specShelfFaces n (325 * s) ++ specShelfFaces n (500 * s) ++ specShelfFaces n (675 * s)
      ++ (specBoxFaces n (200 * s) (225 * s) ++ specBoxFaces n (370 * s) (225 * s)
            ++ specBoxFaces n (540 * s) (225 * s))
      ++ (specBoxFaces n (250 * s) (400 * s) ++ specBoxFaces n (470 * s) (400 * s))
      ++ (specBoxFaces n (170 * s) (575 * s) ++ specBoxFaces n (350 * s) (575 * s)
            ++ specBoxFaces n (570 * s) (575 * s)))

/-- The Synthesizer's display list is exactly the described scene. -/
theorem iconCommands_eq_sceneSpec (n : Nat) : iconCommands n = sceneSpec n := by
  have hE : (1000 * (n:ℤ) - 2 * (150 * (n:ℤ))) / 4 = 175 * (n:ℤ) := by omega
  have h2 : (60 * (n:ℤ)) / 2 = 30 * (n:ℤ) := by omega
  have h3 : 60 * (n:ℤ) * 3 / 10 = 18 * (n:ℤ) := by omega
  have h5 : (120 * (n:ℤ)) / 5 = 24 * (n:ℤ) := by omega
  have h45 : 120 * (n:ℤ) * 4 / 5 = 96 * (n:ℤ) := by omega
  have h25 : 100 * (n:ℤ) * 2 / 5 = 40 * (n:ℤ) := by omega
  simp only [iconCommands, sceneSpec, List.range_succ, List.range_zero,
    List.flatMap_cons, List.flatMap_nil, List.nil_append, List.append_nil]
  unfold shelfCmds draw_3d_box specShelfFaces specBoxFaces
  simp only [hE, h2, h3, h5, h45, h25, Nat.cast_zero, Nat.cast_one, Nat.cast_ofNat]
  norm_num
  ring_nf
  simp

/-- Claim C6: for every size > 0, the Synthesizer draws the background disc,
then exactly three horizontal shelves and exactly eight boxes in a 3/2/3
arrangement, each shelf and box rendered with a front face, a top face and a
side face whose coordinates are hardcoded proportional offsets of the
size. -/
theorem synthesizer_scene_layout (n : Nat) (hn : 0 < n) :
    iconCommands n = sceneSpec n :=
  iconCommands_eq_sceneSpec n

/-- Witness for C6 at size 192. -/
theorem synthesizer_scene_layout_witness :
    0 < 192 ∧ iconCommands 192 = sceneSpec 192 :=
  ⟨by decide, synthesizer_scene_layout 192 (by decide)⟩

end StorageLabels
